import Mathlib

/-!
Shallow embedding of the vacation-request engine of
`telegram-vacation-bot.py` (teams, rule pipeline, request lifecycle,
admin decision coordinator).

Modelling conventions:
* Calendar dates are `Int` ordinals (days of the proleptic Gregorian
  calendar, as in Python `date.toordinal()`).  ISO-8601 date strings
  compare exactly like their ordinals, so SQL comparisons such as
  `start_date BETWEEN ? AND ?` are modelled by `Int` comparisons.
* The `settings` table keys are the source's composite strings
  `"<short-key>:<team-id>"`; since the short keys contain no colon and the
  team id is the trailing decimal digits, that encoding is injective in
  the pair (short key, team id), and the table is modelled as a function
  of that pair.
* Tables with an integer PRIMARY KEY on one column (`admin_actions`,
  keyed by `admin_tg_id`) are modelled as functions from the key to an
  optional row, which is exactly the uniqueness SQLite enforces;
  `INSERT OR REPLACE` is a function update and `DELETE` sets the entry
  to `none`.
* Python `int(text)` is modelled by `pyParseInt` (optional single sign
  followed by one or more ASCII digits; the callers in the source always
  `.strip()` the text first, so surrounding whitespace never reaches the
  parse).  Python `str(v)` on an `int` is modelled by `pyStrInt`.
* Handlers are modelled by their effect on the database state plus the
  list of requester notifications they emit; Telegram I/O and logging
  are outside the model.
-/

namespace VacationBot

/-! ### Calendar arithmetic (models Python `datetime.date`) -/

/-- Leap-year test of the Gregorian calendar (Python `calendar.isleap`). -/
def isLeap (y : Int) : Bool := y % 4 == 0 && (y % 100 != 0 || y % 400 == 0)

/-- Days in the months of a non-leap year before month `m` (1-based). -/
def daysBeforeMonthTable : List Int := [0, 31, 59, 90, 120, 151, 181, 212, 243, 273, 304, 334]

/-- Number of days in year `y` strictly before month `m`. -/
def daysBeforeMonth (y : Int) (m : Nat) : Int :=
  daysBeforeMonthTable.getD (m - 1) 0 + (if 2 < m && isLeap y then 1 else 0)

/-- Number of days strictly before January 1 of year `y` (ordinal of Dec 31 of `y-1`). -/
def daysBeforeYear (y : Int) : Int :=
  365 * (y - 1) + (y - 1) / 4 - (y - 1) / 100 + (y - 1) / 400

/-- Ordinal of the calendar date `(y, m, d)`; `toOrd 1 1 1 = 1`
(Python `date(y, m, d).toordinal()`). -/
def toOrd (y : Int) (m d : Nat) : Int := daysBeforeYear y + daysBeforeMonth y m + d

/-- The calendar year containing ordinal `n` (year-extraction part of
CPython's `_ord2ymd`, i.e. `date.fromordinal(n).year`). -/
def yearOf (n : Int) : Int :=
  let n0 := n - 1
  let n400 := n0 / 146097
  let r400 := n0 % 146097
  let n100 := r400 / 36524
  let r100 := r400 % 36524
  let n4 := r100 / 1461
  let r4 := r100 % 1461
  let n1 := r4 / 365
  let y := 400 * n400 + 100 * n100 + 4 * n4 + n1 + 1
  if n1 = 4 ∨ n100 = 4 then y - 1 else y

/-- A date ordinal falls in calendar year `y` iff it lies between
January 1 and December 31 of `y`. -/
def inYear (y d : Int) : Bool :=
  decide (toOrd y 1 1 ≤ d) && decide (d ≤ toOrd y 12 31)

/-! ### Python `int` / `str` on integers -/

/-- Numeric value of a list of ASCII digit characters (most significant first). -/
def digitsVal (ds : List Char) : Nat :=
  ds.foldl (fun a c => a * 10 + (c.toNat - 48)) 0

/-- Python `int(text)` on a stripped string: optional single sign, then one
or more ASCII digits (underscore separators and non-ASCII digits are not
modelled; they never arise from values the bot itself stores). -/
def pyParseIntList (l : List Char) : Option Int :=
  if l.head? = some '-' then
    if l.tail ≠ [] ∧ l.tail.all Char.isDigit then some (-(digitsVal l.tail : Int)) else none
  else if l.head? = some '+' then
    if l.tail ≠ [] ∧ l.tail.all Char.isDigit then some ((digitsVal l.tail : Int)) else none
  else
    if l ≠ [] ∧ l.all Char.isDigit then some ((digitsVal l : Int)) else none

/-- Python `int(text)` (see `pyParseIntList`). -/
def pyParseInt (s : String) : Option Int := pyParseIntList s.data

/-- Decimal digits of a natural number, most significant first. -/
def natDigits (n : Nat) : List Char :=
  if n < 10 then [Nat.digitChar n]
  else natDigits (n / 10) ++ [Nat.digitChar (n % 10)]
  decreasing_by exact Nat.div_lt_self (by omega) (by omega)

/-- Python `str(v)` on an `int`. -/
def pyStrInt : Int → String
  | Int.ofNat n => String.mk (natDigits n)
  | Int.negSucc m => String.mk ('-' :: natDigits (m + 1))

/-! ### Data model (tables of the SQLite schema) -/

/-- The four values the source ever stores in `vacations.status`. -/
inductive Status
  | pending
  | approved
  | rejected
  | cancelled
deriving DecidableEq

/-- Russian display labels of statuses (`STATUS_HUMAN`). -/
def status_human : Status → String
  | Status.pending => "На рассмотрении"
  | Status.approved => "Подтверждена"
  | Status.rejected => "Отклонена"
  | Status.cancelled => "Отменена"

/-- A row of the `vacations` table. -/
structure Vacation where
  id : Nat
  team_id : Nat
  user_id : Nat
  type_id : Nat
  start_date : Int
  end_date : Int
  days : Int
  status : Status
  admin_comment : String
deriving DecidableEq

/-- A row of the `users` table (`tg_id` is `NULL` for pre-provisioned
placeholder users that never contacted the bot). -/
structure UserRow where
  id : Nat
  tg_id : Option Int
  username : String
  full_name : String
  role : String
  team_id : Nat
deriving DecidableEq

/-- A row of the `forbidden_dates` table. -/
structure ForbiddenRow where
  team_id : Nat
  date : Int
  note : String
deriving DecidableEq

/-- The per-team key/value `settings` table, keyed by (short key, team id);
the source's physical key is the string `"<short-key>:<team-id>"`, which is
injective in this pair. -/
abbrev SettingsStore := String → Nat → Option String

/-- Models `INSERT OR REPLACE INTO settings` (an upsert) for a team-scoped key. -/
def sset (st : SettingsStore) (short : String) (team : Nat) (v : String) : SettingsStore :=
  fun s t => if s = short ∧ t = team then some v else st s t

/-- Models `INSERT OR IGNORE INTO settings`: writes only when the key is absent. -/
def ins_or_ignore (st : SettingsStore) (short : String) (team : Nat) (v : String) : SettingsStore :=
  if (st short team).isSome then st else sset st short team v

/-- The whole database state the engine reads and writes. -/
structure DB where
  vacations : List Vacation
  users : List UserRow
  forbidden_dates : List ForbiddenRow
  settings : SettingsStore
  /-- Table `admin_actions`: `admin_tg_id ↦ (vacation_id, action)`;
  the PRIMARY KEY on `admin_tg_id` makes it one optional row per admin. -/
  admin_actions : Nat → Option (Nat × String)
  /-- Next AUTOINCREMENT id of the `vacations` table. -/
  next_vac_id : Nat

/-- Function `get_team_setting`: read `"<short>:<team>"`, falling back to the default. -/
def get_team_setting (db : DB) (team : Nat) (short default_ : String) : String :=
  (db.settings short team).getD default_

/-- Function `set_team_setting`: upsert of `"<short>:<team>"`. -/
def set_team_setting (db : DB) (team : Nat) (short v : String) : DB :=
  { db with settings := sset db.settings short team v }

/-! ### Business rules (`====== BUSINESS RULES ======`) -/

/-- Function `dates_overlap`: `not (a_end < b_start or b_end < a_start)`. -/
def dates_overlap (a_start a_end b_start b_end : Int) : Bool :=
  !(decide (a_end < b_start) || decide (b_end < a_start))

/-- The team's set of forbidden dates (the `SELECT date FROM forbidden_dates
WHERE team_id=?` rows of `is_range_forbidden`). -/
def forbidden_set (db : DB) (team_id : Nat) : List Int :=
  (db.forbidden_dates.filter (fun r => r.team_id == team_id)).map (fun r => r.date)

/-- The days `start, start+1, …, end` walked by `is_range_forbidden`
(empty when `end < start`). -/
def dayRange (start end_ : Int) : List Int :=
  (List.range (end_ - start + 1).toNat).map (fun (i : Nat) => start + (i : Int))

/-- Function `is_range_forbidden`: first day of `[start, end]` (ascending) that is in
the team's forbidden set, if any. -/
def is_range_forbidden (db : DB) (team_id : Nat) (start end_ : Int) : Option Int :=
  (dayRange start end_).find? (fun d => (forbidden_set db team_id).contains d)

/-- Rejection message of `check_overlap_policy` under `deny_all`. -/
def deny_all_msg (fname : String) (s e : Int) : String :=
  "Пересечение с отпуском " ++ fname ++ " (" ++ toString s ++ "—" ++ toString e ++
    "). Политика: запрет для всех."

/-- Rejection message of `check_overlap_policy` under `deny_same_role`. -/
def deny_same_role_msg (fname : String) (s e : Int) (role : String) : String :=
  "Пересечение с отпуском " ++ fname ++ " (" ++ toString s ++ "—" ++ toString e ++
    ") той же роли (" ++ role ++ "). Политика: запрет для одинаковых ролей."

/-- The joined rows `SELECT v.start_date, v.end_date, u.full_name, u.role FROM
vacations v JOIN users u ON v.user_id=u.id WHERE v.team_id=? AND v.status IN
('pending','approved')`, in table order. -/
def overlap_rows (db : DB) (team_id : Nat) : List (Vacation × UserRow) :=
  db.vacations.filterMap (fun v =>
    if v.team_id == team_id && (v.status == Status.pending || v.status == Status.approved) then
      (db.users.find? (fun u => u.id == v.user_id)).map (fun u => (v, u))
    else none)

/-- The `for s, e, fname, r in rows` loop body of `check_overlap_policy`. -/
def overlap_scan (policy role : String) (start end_ : Int) :
    List (Vacation × UserRow) → Option String
  | [] => none
  | (v, u) :: rest =>
    if dates_overlap start end_ v.start_date v.end_date then
      if policy = "deny_all" then some (deny_all_msg u.full_name v.start_date v.end_date)
      else if policy = "deny_same_role" ∧ u.role = role then
        some (deny_same_role_msg u.full_name v.start_date v.end_date role)
      else overlap_scan policy role start end_ rest
    else overlap_scan policy role start end_ rest

/-- Function `check_overlap_policy`. -/
def check_overlap_policy (db : DB) (team_id : Nat) (start end_ : Int) (role : String) :
    Option String :=
  let policy := get_team_setting db team_id "overlap_policy" "allow_all"
  if policy = "allow_all" then none
  else overlap_scan policy role start end_ (overlap_rows db team_id)

/-- Function `user_year_used_days`: `SELECT COALESCE(SUM(days),0) FROM vacations WHERE
user_id=? AND status='approved' AND start_date BETWEEN ? AND ?` with the
bounds `date(year,1,1)` and `date(year,12,31)`. -/
def user_year_used_days (db : DB) (user_id : Nat) (year : Int) : Int :=
  db.vacations.foldl
    (fun acc v =>
      if v.user_id == user_id && v.status == Status.approved &&
          decide (toOrd year 1 1 ≤ v.start_date) && decide (v.start_date ≤ toOrd year 12 31) then
        acc + v.days
      else acc)
    0

/-! ### Submission pipeline (`process_apply_submission`) -/

/-- The outcome `process_apply_submission` reports to the submitting user.
Each rejection constructor carries the values its message interpolates. -/
inductive ApplyResult
  | endBeforeStart
  | forbidden (d : Int)
  | capExceeded (cap : Int)
  | overlap (msg : String)
  | quotaExceeded (year used limit : Int)
  | accepted (vac_id : Nat)
deriving DecidableEq

/-- The exact message text `process_apply_submission` sends for each outcome. -/
def apply_reply_text : ApplyResult → String
  | ApplyResult.endBeforeStart => "Дата окончания раньше даты начала — неверно."
  | ApplyResult.forbidden d => "В диапазоне есть запрещённая дата: " ++ toString d ++ "."
  | ApplyResult.capExceeded c => "Превышен максимум дней за раз (" ++ toString c ++ ")."
  | ApplyResult.overlap msg => msg
  | ApplyResult.quotaExceeded y used limit =>
      "Превышен лимит дней в " ++ toString y ++ " году: " ++ toString used ++ "/" ++
        toString limit ++ "."
  | ApplyResult.accepted vid => "Заявка #" ++ toString vid ++ " отправлена на рассмотрение."

/-- Function `process_apply_submission`; a `none` result models an uncaught exception from
`int(...)` on an unparseable setting value; every other path returns the
outcome and the (possibly extended) database. -/
def process_apply_submission (db : DB) (user : UserRow) (type_id : Nat)
    (start end_ : Int) (comment : String) : Option (ApplyResult × DB) :=
  if end_ < start then some (ApplyResult.endBeforeStart, db)
  else
    let days : Int := (end_ - start) + 1
    match is_range_forbidden db user.team_id start end_ with
    | some d => some (ApplyResult.forbidden d, db)
    | none =>
      match pyParseInt (get_team_setting db user.team_id "max_single_days" "14") with
      | none => none
      | some max_single =>
        if days > max_single then some (ApplyResult.capExceeded max_single, db)
        else
          match check_overlap_policy db user.team_id start end_ user.role with
          | some msg => some (ApplyResult.overlap msg, db)
          | none =>
            let used := user_year_used_days db user.id (yearOf start)
            match pyParseInt (get_team_setting db user.team_id "max_year_days" "28") with
            | none => none
            | some max_year =>
              if used + days > max_year then
                some (ApplyResult.quotaExceeded (yearOf start) used max_year, db)
              else
                let vid := db.next_vac_id
                let v : Vacation :=
                  { id := vid, team_id := user.team_id, user_id := user.id, type_id := type_id,
                    start_date := start, end_date := end_, days := days,
                    status := Status.pending, admin_comment := comment }
                some (ApplyResult.accepted vid,
                  { db with vacations := db.vacations ++ [v], next_vac_id := vid + 1 })

/-! ### Admin decision coordinator -/

/-- Models `UPDATE vacations SET status=?, admin_comment=? WHERE id=?` (shared by
`finalize_admin_decision` and `admin_skip_comment_cb`). -/
def vacations_set_status (l : List Vacation) (vac_id : Nat) (st : Status) (comment : String) :
    List Vacation :=
  l.map (fun w => if w.id == vac_id then { w with status := st, admin_comment := comment } else w)

/-- The `FROM vacations v JOIN users u ON v.user_id=u.id WHERE v.id=?` lookup. -/
def find_vacation_user (db : DB) (vac_id : Nat) : Option (Vacation × UserRow) :=
  (db.vacations.find? (fun v => v.id == vac_id)).bind (fun v =>
    (db.users.find? (fun u => u.id == v.user_id)).map (fun u => (v, u)))

/-- A `context.bot.send_message` obligation to the requester. -/
structure Notification where
  chat_id : Int
  text : String
deriving DecidableEq

/-- Requester notification text of a finalized decision
(`comment or "—"` renders an empty comment as an em-dash). -/
def decision_note_text (vac_id : Nat) (st : Status) (comment : String) : String :=
  "Ваша заявка #" ++ toString vac_id ++ ": " ++ status_human st ++ ". Комментарий: " ++
    (if comment = "" then "—" else comment)

/-- Models `status = 'approved' if action == 'approve' else 'rejected'`. -/
def action_status (action : String) : Status :=
  if action = "approve" then Status.approved else Status.rejected

/-- Return value of `finalize_admin_decision` (`(False, "Заявка не найдена.")`
or `(True, status)`). -/
inductive FinalizeResult
  | requestNotFound
  | ok (st : Status)
deriving DecidableEq

/-- Database effect of `admin_action_cb`: `INSERT OR REPLACE INTO
admin_actions(admin_tg_id, vacation_id, action)` — the single-slot upsert. -/
def admin_action_cb (db : DB) (admin_tg : Nat) (vac_id : Nat) (action : String) : DB :=
  { db with admin_actions := fun a => if a = admin_tg then some (vac_id, action) else db.admin_actions a }

/-- Function `finalize_admin_decision`: loads the request (joined with its user); if it
no longer exists, reports failure touching nothing (the admin action row is
NOT deleted on this path); otherwise sets the status from the recorded action,
stores the comment verbatim, deletes the admin's action row and notifies the
requester (no notification if the requester has no resolved `tg_id`). -/
def finalize_admin_decision (db : DB) (admin_tg : Nat) (vac_id : Nat)
    (action : String) (comment : String) : FinalizeResult × DB × List Notification :=
  match find_vacation_user db vac_id with
  | none => (FinalizeResult.requestNotFound, db, [])
  | some (_, u) =>
    let st := action_status action
    let db' : DB :=
      { db with
        vacations := vacations_set_status db.vacations vac_id st comment,
        admin_actions := fun a => if a = admin_tg then none else db.admin_actions a }
    let notes := match u.tg_id with
      | some tg => [{ chat_id := tg, text := decision_note_text vac_id st comment : Notification }]
      | none => []
    (FinalizeResult.ok st, db', notes)

/-- Outcome of the "skip comment" shortcut `admin_skip_comment_cb`. -/
inductive SkipResult
  | noActiveAction
  | requestNotFound
  | finalized (st : Status)
deriving DecidableEq

/-- Handler `admin_skip_comment_cb`: finalize the admin's recorded action with an
empty comment.  When the referenced request no longer exists this path DOES
delete the stale admin action row before returning. -/
def admin_skip_comment_cb (db : DB) (admin_tg : Nat) : SkipResult × DB × List Notification :=
  match db.admin_actions admin_tg with
  | none => (SkipResult.noActiveAction, db, [])
  | some (vac_id, action) =>
    match find_vacation_user db vac_id with
    | none =>
      (SkipResult.requestNotFound,
        { db with admin_actions := fun a => if a = admin_tg then none else db.admin_actions a },
        [])
    | some (_, u) =>
      let comment := ""
      let st := action_status action
      let db' : DB :=
        { db with
          vacations := vacations_set_status db.vacations vac_id st comment,
          admin_actions := fun a => if a = admin_tg then none else db.admin_actions a }
      let notes := match u.tg_id with
        | some tg => [{ chat_id := tg, text := "Ваша заявка #" ++ toString vac_id ++ ": " ++
            status_human st ++ ". Комментарий: —" : Notification }]
        | none => []
      (SkipResult.finalized st, db', notes)

/-- The approve/reject-comment branch of `admin_text_handler`: if the admin
has a recorded action, finalize it with the message text as the comment
(`"/skip"` means an empty comment); otherwise the branch is not taken
(`none`) and the handler falls through to the wizard steps. -/
def admin_text_decision (db : DB) (admin_tg : Nat) (text : String) :
    Option (FinalizeResult × DB × List Notification) :=
  match db.admin_actions admin_tg with
  | none => none
  | some (vac_id, action) =>
    let comment := if text = "/skip" then "" else text
    some (finalize_admin_decision db admin_tg vac_id action comment)

/-! ### Forbidden-date administration -/

/-- The `unforbid_date` wizard branch of `admin_text_handler`:
`DELETE FROM forbidden_dates WHERE team_id=? AND date=?`. -/
def admin_unforbid_date (db : DB) (team_id : Nat) (d : Int) : DB :=
  { db with forbidden_dates :=
      db.forbidden_dates.filter (fun r => !(r.team_id == team_id && r.date == d)) }

/-- The `forbid_note` wizard branch: one `INSERT INTO forbidden_dates` row per
day of the range, all sharing the note. -/
def forbid_range (db : DB) (team_id : Nat) (d1 d2 : Int) (note : String) : DB :=
  { db with forbidden_dates :=
      db.forbidden_dates ++
        (dayRange d1 d2).map (fun d => { team_id := team_id, date := d, note := note : ForbiddenRow }) }

/-! ### Request cancellation -/

/-- Result of `CancelRequest`. -/
inductive CancelResult
  | requestNotFound
  | notOwner
  | notPending
  | cancelled
deriving DecidableEq

/-- Modelled from the spec: `CancelRequest(requestId, byUser)` (spec §6, §8).
The source contains no cancellation operation on stored requests (only the
`cancelled` status label exists, in `STATUS_HUMAN`); this follows the spec's
words: fail with `NotOwner` if `byUser` did not create the request, with
`NotPending` if it is already decided, else transition `pending → cancelled`. -/
def cancelRequest (db : DB) (request_id : Nat) (by_user : Nat) : CancelResult × DB :=
  match db.vacations.find? (fun v => v.id == request_id) with
  | none => (CancelResult.requestNotFound, db)
  | some v =>
    if v.user_id ≠ by_user then (CancelResult.notOwner, db)
    else if v.status ≠ Status.pending then (CancelResult.notPending, db)
    else
      (CancelResult.cancelled,
        { db with vacations := vacations_set_status db.vacations request_id Status.cancelled v.admin_comment })

/-! ### Settings write paths for the numeric limits -/

/-- The `set_max_year` wizard branch of `admin_text_handler`: `int(text)`, on
failure re-prompt storing nothing, on success store `str(v)`. -/
def admin_set_max_year (st : SettingsStore) (team : Nat) (text : String) : SettingsStore :=
  match pyParseInt text with
  | none => st
  | some v => sset st "max_year_days" team (pyStrInt v)

/-- The `set_max_single` wizard branch of `admin_text_handler`. -/
def admin_set_max_single (st : SettingsStore) (team : Nat) (text : String) : SettingsStore :=
  match pyParseInt text with
  | none => st
  | some v => sset st "max_single_days" team (pyStrInt v)

/-- The `boot_max_year` step of the bootstrap wizard. -/
def boot_max_year (st : SettingsStore) (team : Nat) (text : String) : SettingsStore :=
  match pyParseInt text with
  | none => st
  | some v => sset st "max_year_days" team (pyStrInt v)

/-- The `boot_max_single` step of the bootstrap wizard. -/
def boot_max_single (st : SettingsStore) (team : Nat) (text : String) : SettingsStore :=
  match pyParseInt text with
  | none => st
  | some v => sset st "max_single_days" team (pyStrInt v)

/-- The `init_db` default settings for a team (`INSERT OR IGNORE`, values
`'28'`, `'14'`, `allow_all`). -/
def init_db_defaults (st : SettingsStore) (team : Nat) : SettingsStore :=
  ins_or_ignore (ins_or_ignore (ins_or_ignore st "max_year_days" team "28")
    "max_single_days" team "14") "overlap_policy" team "allow_all"

/-- The `reg_team_name` defaults written when a new team is created
(unconditional upserts of `'28'`, `'14'`, `allow_all`). -/
def reg_team_defaults (st : SettingsStore) (team : Nat) : SettingsStore :=
  sset (sset (sset st "max_year_days" team "28") "max_single_days" team "14")
    "overlap_policy" team "allow_all"

/-- All ways the source ever writes the `settings` table (closure of the
empty store under every write path in the source: `init_db`,
`reg_team_name`, the `set_max_year` / `set_max_single` admin wizard steps,
`boot_max_year` / `boot_max_single`, and the overlap-policy pickers, which
store one of the fixed policy strings). -/
inductive ReachableSettings : SettingsStore → Prop
  | empty : ReachableSettings (fun _ _ => none)
  | init_db (st : SettingsStore) (team : Nat) :
      ReachableSettings st → ReachableSettings (init_db_defaults st team)
  | reg_team (st : SettingsStore) (team : Nat) :
      ReachableSettings st → ReachableSettings (reg_team_defaults st team)
  | set_year (st : SettingsStore) (team : Nat) (text : String) :
      ReachableSettings st → ReachableSettings (admin_set_max_year st team text)
  | set_single (st : SettingsStore) (team : Nat) (text : String) :
      ReachableSettings st → ReachableSettings (admin_set_max_single st team text)
  | boot_year (st : SettingsStore) (team : Nat) (text : String) :
      ReachableSettings st → ReachableSettings (boot_max_year st team text)
  | boot_single (st : SettingsStore) (team : Nat) (text : String) :
      ReachableSettings st → ReachableSettings (boot_max_single st team text)
  | set_overlap (st : SettingsStore) (team : Nat) (pol : String) :
      ReachableSettings st → ReachableSettings (sset st "overlap_policy" team pol)

/-! ### Lemmas about decimal printing and parsing -/

lemma digitChar_isDigit {d : Nat} (h : d < 10) : (Nat.digitChar d).isDigit = true := by
  interval_cases d <;> decide

lemma digitChar_toNat {d : Nat} (h : d < 10) : (Nat.digitChar d).toNat - 48 = d := by
  interval_cases d <;> decide

lemma natDigits_ne_nil (n : Nat) : natDigits n ≠ [] := by
  unfold natDigits
  split <;> simp

lemma natDigits_all_digit (n : Nat) : (natDigits n).all Char.isDigit = true := by
  induction n using Nat.strong_induction_on with
  | _ n ih =>
    unfold natDigits
    split
    · next h => simp [digitChar_isDigit h]
    · next h =>
      rw [List.all_append]
      have h1 := ih (n / 10) (Nat.div_lt_self (by omega) (by omega))
      have h2 : (Nat.digitChar (n % 10)).isDigit = true :=
        digitChar_isDigit (Nat.mod_lt _ (by omega))
      simp [h1, h2]

lemma digitsVal_append_singleton (l : List Char) (c : Char) :
    digitsVal (l ++ [c]) = 10 * digitsVal l + (c.toNat - 48) := by
  simp [digitsVal, List.foldl_append, Nat.mul_comm]

lemma digitsVal_natDigits (n : Nat) : digitsVal (natDigits n) = n := by
  induction n using Nat.strong_induction_on with
  | _ n ih =>
    unfold natDigits
    split
    · next h =>
      simp [digitsVal, digitChar_toNat h]
    · next h =>
      rw [digitsVal_append_singleton, ih (n / 10) (Nat.div_lt_self (by omega) (by omega)),
        digitChar_toNat (Nat.mod_lt _ (by omega))]
      omega

lemma head_of_all_digit {l : List Char} (hne : l ≠ []) (hall : l.all Char.isDigit = true) :
    l.head? ≠ some '-' ∧ l.head? ≠ some '+' := by
  cases l with
  | nil => exact absurd rfl hne
  | cons c cs =>
    rw [List.all_cons, Bool.and_eq_true] at hall
    refine ⟨?_, ?_⟩ <;> intro h <;> rw [List.head?_cons, Option.some_inj] at h <;>
      rw [h] at hall <;> exact absurd hall.1 (by decide)

/-- Parsing the decimal print of an integer recovers it. -/
lemma pyParseInt_pyStrInt (v : Int) : pyParseInt (pyStrInt v) = some v := by
  cases v with
  | ofNat n =>
    have hne := natDigits_ne_nil n
    have hall := natDigits_all_digit n
    have hhead := head_of_all_digit hne hall
    show pyParseIntList (natDigits n) = some (Int.ofNat n)
    rw [pyParseIntList, if_neg hhead.1, if_neg hhead.2, if_pos ⟨hne, hall⟩,
      digitsVal_natDigits]
    rfl
  | negSucc m =>
    have hne := natDigits_ne_nil (m + 1)
    have hall := natDigits_all_digit (m + 1)
    show pyParseIntList ('-' :: natDigits (m + 1)) = some (Int.negSucc m)
    rw [pyParseIntList, if_pos (by rw [List.head?_cons])]
    simp only [List.tail_cons]
    rw [if_pos ⟨hne, hall⟩, digitsVal_natDigits]
    rw [Int.negSucc_eq]
    norm_num

example : pyParseInt "28" = some 28 := by decide
example : pyParseInt "14" = some 14 := by decide
example : pyParseInt "abc" = none := by decide
example : pyParseInt "-3" = some (-3) := by decide
example : pyParseInt "" = none := by decide

/-! ### Settings-store lemmas and the reachable-values invariant -/

lemma sset_self (st : SettingsStore) (short : String) (team : Nat) (v : String) :
    sset st short team v short team = some v := if_pos ⟨rfl, rfl⟩

/-- Reading any key of an upserted store yields the old value or, at the
written key, the new value. -/
lemma sset_read (st : SettingsStore) (short : String) (team : Nat) (v : String)
    (s : String) (t : Nat) :
    sset st short team v s t = st s t ∨
      (s = short ∧ t = team ∧ sset st short team v s t = some v) := by
  by_cases h : s = short ∧ t = team
  · exact Or.inr ⟨h.1, h.2, if_pos h⟩
  · exact Or.inl (if_neg h)

/-- Reading any key after an `INSERT OR IGNORE` yields the old value or, at
the written key, the inserted value. -/
lemma ins_or_ignore_read (st : SettingsStore) (short : String) (team : Nat) (v : String)
    (s : String) (t : Nat) :
    ins_or_ignore st short team v s t = st s t ∨
      (s = short ∧ t = team ∧ ins_or_ignore st short team v s t = some v) := by
  unfold ins_or_ignore
  split
  · exact Or.inl rfl
  · exact sset_read st short team v s t

lemma sset_ne_short (st : SettingsStore) (short : String) (team : Nat) (v : String)
    {s : String} (h : s ≠ short) (t : Nat) : sset st short team v s t = st s t :=
  if_neg (fun hc => h hc.1)

lemma ins_or_ignore_ne_short (st : SettingsStore) (short : String) (team : Nat) (v : String)
    {s : String} (h : s ≠ short) (t : Nat) : ins_or_ignore st short team v s t = st s t := by
  unfold ins_or_ignore
  split
  · rfl
  · exact sset_ne_short st short team v h t

/-- Any value stored under a `max_year_days` key of a reachable settings
store is `"28"` or the decimal print of an integer; any value under a
`max_single_days` key is `"14"` or such a print. -/
lemma reachable_num_values {st : SettingsStore} (h : ReachableSettings st) (team : Nat) :
    (∀ v, st "max_year_days" team = some v → v = "28" ∨ ∃ n : Int, v = pyStrInt n) ∧
    (∀ v, st "max_single_days" team = some v → v = "14" ∨ ∃ n : Int, v = pyStrInt n) := by
  have hys : ("max_year_days" : String) ≠ "max_single_days" := by decide
  have hsy : ("max_single_days" : String) ≠ "max_year_days" := by decide
  have hyo : ("max_year_days" : String) ≠ "overlap_policy" := by decide
  have hso : ("max_single_days" : String) ≠ "overlap_policy" := by decide
  induction h with
  | empty =>
    refine ⟨fun v hv => ?_, fun v hv => ?_⟩ <;> exact Option.noConfusion hv
  | init_db st' team' _ ih =>
    refine ⟨fun v hv => ?_, fun v hv => ?_⟩
    · rw [init_db_defaults, ins_or_ignore_ne_short _ _ _ _ hyo,
        ins_or_ignore_ne_short _ _ _ _ hys] at hv
      rcases ins_or_ignore_read st' "max_year_days" team' "28" "max_year_days" team with
        hr | ⟨_, _, hr⟩ <;> rw [hr] at hv
      · exact (ih.1) v hv
      · exact Or.inl (Option.some_inj.mp hv).symm
    · rw [init_db_defaults, ins_or_ignore_ne_short _ _ _ _ hso] at hv
      rcases ins_or_ignore_read (ins_or_ignore st' "max_year_days" team' "28")
          "max_single_days" team' "14" "max_single_days" team with hr | ⟨_, _, hr⟩ <;>
        rw [hr] at hv
      · rw [ins_or_ignore_ne_short _ _ _ _ hsy] at hv
        exact (ih.2) v hv
      · exact Or.inl (Option.some_inj.mp hv).symm
  | reg_team st' team' _ ih =>
    refine ⟨fun v hv => ?_, fun v hv => ?_⟩
    · rw [reg_team_defaults, sset_ne_short _ _ _ _ hyo, sset_ne_short _ _ _ _ hys] at hv
      rcases sset_read st' "max_year_days" team' "28" "max_year_days" team with
        hr | ⟨_, _, hr⟩ <;> rw [hr] at hv
      · exact (ih.1) v hv
      · exact Or.inl (Option.some_inj.mp hv).symm
    · rw [reg_team_defaults, sset_ne_short _ _ _ _ hso] at hv
      rcases sset_read (sset st' "max_year_days" team' "28") "max_single_days" team' "14"
          "max_single_days" team with hr | ⟨_, _, hr⟩ <;> rw [hr] at hv
      · rw [sset_ne_short _ _ _ _ hsy] at hv
        exact (ih.2) v hv
      · exact Or.inl (Option.some_inj.mp hv).symm
  | set_year st' team' text _ ih =>
    cases hp : pyParseInt text with
    | none =>
      simp only [admin_set_max_year, hp] at *
      exact ih
    | some n =>
      refine ⟨fun v hv => ?_, fun v hv => ?_⟩ <;> simp only [admin_set_max_year, hp] at hv
      · rcases sset_read st' "max_year_days" team' (pyStrInt n) "max_year_days" team with
          hr | ⟨_, _, hr⟩ <;> rw [hr] at hv
        · exact (ih.1) v hv
        · exact Or.inr ⟨n, (Option.some_inj.mp hv).symm⟩
      · rw [sset_ne_short _ _ _ _ hsy] at hv
        exact (ih.2) v hv
  | set_single st' team' text _ ih =>
    cases hp : pyParseInt text with
    | none =>
      simp only [admin_set_max_single, hp] at *
      exact ih
    | some n =>
      refine ⟨fun v hv => ?_, fun v hv => ?_⟩ <;> simp only [admin_set_max_single, hp] at hv
      · rw [sset_ne_short _ _ _ _ hys] at hv
        exact (ih.1) v hv
      · rcases sset_read st' "max_single_days" team' (pyStrInt n) "max_single_days" team with
          hr | ⟨_, _, hr⟩ <;> rw [hr] at hv
        · exact (ih.2) v hv
        · exact Or.inr ⟨n, (Option.some_inj.mp hv).symm⟩
  | boot_year st' team' text _ ih =>
    cases hp : pyParseInt text with
    | none =>
      simp only [boot_max_year, hp] at *
      exact ih
    | some n =>
      refine ⟨fun v hv => ?_, fun v hv => ?_⟩ <;> simp only [boot_max_year, hp] at hv
      · rcases sset_read st' "max_year_days" team' (pyStrInt n) "max_year_days" team with
          hr | ⟨_, _, hr⟩ <;> rw [hr] at hv
        · exact (ih.1) v hv
        · exact Or.inr ⟨n, (Option.some_inj.mp hv).symm⟩
      · rw [sset_ne_short _ _ _ _ hsy] at hv
        exact (ih.2) v hv
  | boot_single st' team' text _ ih =>
    cases hp : pyParseInt text with
    | none =>
      simp only [boot_max_single, hp] at *
      exact ih
    | some n =>
      refine ⟨fun v hv => ?_, fun v hv => ?_⟩ <;> simp only [boot_max_single, hp] at hv
      · rw [sset_ne_short _ _ _ _ hys] at hv
        exact (ih.1) v hv
      · rcases sset_read st' "max_single_days" team' (pyStrInt n) "max_single_days" team with
          hr | ⟨_, _, hr⟩ <;> rw [hr] at hv
        · exact (ih.2) v hv
        · exact Or.inr ⟨n, (Option.some_inj.mp hv).symm⟩
  | set_overlap st' team' pol _ ih =>
    refine ⟨fun v hv => ?_, fun v hv => ?_⟩
    · rw [sset_ne_short _ _ _ _ hyo] at hv
      exact (ih.1) v hv
    · rw [sset_ne_short _ _ _ _ hso] at hv
      exact (ih.2) v hv

lemma ins_or_ignore_absent (st : SettingsStore) (short : String) (team : Nat) (v : String)
    (h : st short team = none) : ins_or_ignore st short team v short team = some v := by
  unfold ins_or_ignore
  rw [h]
  exact sset_self st short team v

/-- In a reachable settings store, the annual-quota value read by the
submission pipeline always parses. -/
lemma reachable_parse_year {st : SettingsStore} (h : ReachableSettings st) (team : Nat) :
    ∃ n : Int, pyParseInt ((st "max_year_days" team).getD "28") = some n := by
  cases hv : st "max_year_days" team with
  | none => exact ⟨28, by rw [Option.getD_none]; decide⟩
  | some v =>
    rw [Option.getD_some]
    rcases (reachable_num_values h team).1 v hv with h28 | ⟨n, hn⟩
    · exact ⟨28, by rw [h28]; decide⟩
    · exact ⟨n, by rw [hn, pyParseInt_pyStrInt]⟩

/-- In a reachable settings store, the per-request-cap value read by the
submission pipeline always parses. -/
lemma reachable_parse_single {st : SettingsStore} (h : ReachableSettings st) (team : Nat) :
    ∃ n : Int, pyParseInt ((st "max_single_days" team).getD "14") = some n := by
  cases hv : st "max_single_days" team with
  | none => exact ⟨14, by rw [Option.getD_none]; decide⟩
  | some v =>
    rw [Option.getD_some]
    rcases (reachable_num_values h team).2 v hv with h14 | ⟨n, hn⟩
    · exact ⟨14, by rw [h14]; decide⟩
    · exact ⟨n, by rw [hn, pyParseInt_pyStrInt]⟩

/-! ### Concrete fixtures used by witnesses and counterexamples -/

/-- An empty database (fresh store, no rows, no settings). -/
def db0 : DB :=
  { vacations := [], users := [], forbidden_dates := [], settings := fun _ _ => none,
    admin_actions := fun _ => none, next_vac_id := 1 }

/-- A resolved staff user of team 1. -/
def user0 : UserRow :=
  { id := 1, tg_id := some 100, username := "ann", full_name := "Ann", role := "BAER", team_id := 1 }

/-- C10: every write path for the numeric settings `max_year_days` and
`max_single_days` rejects non-integer input storing nothing, otherwise
stores the decimal string of an integer; the installed defaults are `'28'`
and `'14'`; hence in every reachable settings state the integer parses done
during submission validation succeed and `process_apply_submission` never
hits its exception path. -/
theorem numeric_settings_always_parse :
    (∀ (st : SettingsStore) (team : Nat) (text : String), pyParseInt text = none →
      admin_set_max_year st team text = st ∧ admin_set_max_single st team text = st ∧
      boot_max_year st team text = st ∧ boot_max_single st team text = st) ∧
    (∀ (st : SettingsStore) (team : Nat) (text : String) (v : Int), pyParseInt text = some v →
      admin_set_max_year st team text = sset st "max_year_days" team (pyStrInt v) ∧
      admin_set_max_single st team text = sset st "max_single_days" team (pyStrInt v)) ∧
    (∀ team : Nat,
      init_db_defaults (fun _ _ => none) team "max_year_days" team = some "28" ∧
      init_db_defaults (fun _ _ => none) team "max_single_days" team = some "14") ∧
    (∀ st : SettingsStore, ReachableSettings st → ∀ team : Nat,
      (∃ n : Int, pyParseInt ((st "max_year_days" team).getD "28") = some n) ∧
      (∃ n : Int, pyParseInt ((st "max_single_days" team).getD "14") = some n)) ∧
    (∀ (db : DB) (user : UserRow) (type_id : Nat) (s e : Int) (c : String),
      ReachableSettings db.settings → process_apply_submission db user type_id s e c ≠ none) := by
  have hys : ("max_year_days" : String) ≠ "max_single_days" := by decide
  have hsy : ("max_single_days" : String) ≠ "max_year_days" := by decide
  have hyo : ("max_year_days" : String) ≠ "overlap_policy" := by decide
  have hso : ("max_single_days" : String) ≠ "overlap_policy" := by decide
  refine ⟨?_, ?_, ?_, ?_, ?_⟩
  · intro st team text h
    refine ⟨?_, ?_, ?_, ?_⟩ <;> simp only [admin_set_max_year, admin_set_max_single,
      boot_max_year, boot_max_single, h]
  · intro st team text v h
    refine ⟨?_, ?_⟩ <;> simp only [admin_set_max_year, admin_set_max_single, h]
  · intro team
    constructor
    · rw [init_db_defaults, ins_or_ignore_ne_short _ _ _ _ hyo,
        ins_or_ignore_ne_short _ _ _ _ hys]
      exact ins_or_ignore_absent _ _ _ _ rfl
    · rw [init_db_defaults, ins_or_ignore_ne_short _ _ _ _ hso]
      exact ins_or_ignore_absent _ _ _ _ (by rw [ins_or_ignore_ne_short _ _ _ _ hsy])
  · intro st h team
    exact ⟨reachable_parse_year h team, reachable_parse_single h team⟩
  · intro db user type_id s e c hreach hnone
    obtain ⟨ns, hs⟩ := reachable_parse_single hreach user.team_id
    obtain ⟨ny, hy⟩ := reachable_parse_year hreach user.team_id
    rw [process_apply_submission] at hnone
    simp only [get_team_setting, hs, hy] at hnone
    split at hnone
    · exact Option.noConfusion hnone
    · split at hnone
      · exact Option.noConfusion hnone
      · split at hnone
        · exact Option.noConfusion hnone
        · split at hnone
          · exact Option.noConfusion hnone
          · split at hnone
            · exact Option.noConfusion hnone
            · exact Option.noConfusion hnone

/-- Closed instance of `numeric_settings_always_parse` on the empty store. -/
theorem numeric_settings_always_parse_witness :
    ReachableSettings db0.settings ∧ process_apply_submission db0 user0 1 5 7 "" ≠ none :=
  ⟨ReachableSettings.empty,
    numeric_settings_always_parse.2.2.2.2 db0 user0 1 5 7 "" ReachableSettings.empty⟩

/-! ### C2: the submission pipeline order -/

/-- The pending row the acceptance path inserts. -/
def new_pending_row (db : DB) (user : UserRow) (type_id : Nat) (s e : Int) (c : String) :
    Vacation :=
  { id := db.next_vac_id, team_id := user.team_id, user_id := user.id, type_id := type_id,
    start_date := s, end_date := e, days := (e - s) + 1, status := Status.pending,
    admin_comment := c }

/-- C2: `end < start` is rejected before any other rule; then the rules run in
the fixed order forbidden-date, per-request cap, overlap policy, annual quota,
short-circuiting at the first rejection (whose reason is what the caller
sees); no vacation row is created on any rejection; on acceptance exactly one
row is created, in status `pending`. -/
theorem process_apply_pipeline (db : DB) (user : UserRow) (type_id : Nat)
    (s e : Int) (c : String) (msd myd : Int)
    (hs : pyParseInt (get_team_setting db user.team_id "max_single_days" "14") = some msd)
    (hy : pyParseInt (get_team_setting db user.team_id "max_year_days" "28") = some myd) :
    (e < s → process_apply_submission db user type_id s e c =
      some (ApplyResult.endBeforeStart, db)) ∧
    (∀ d, ¬ e < s → is_range_forbidden db user.team_id s e = some d →
      process_apply_submission db user type_id s e c = some (ApplyResult.forbidden d, db)) ∧
    (¬ e < s → is_range_forbidden db user.team_id s e = none → (e - s) + 1 > msd →
      process_apply_submission db user type_id s e c = some (ApplyResult.capExceeded msd, db)) ∧
    (∀ m, ¬ e < s → is_range_forbidden db user.team_id s e = none → ¬ (e - s) + 1 > msd →
      check_overlap_policy db user.team_id s e user.role = some m →
      process_apply_submission db user type_id s e c = some (ApplyResult.overlap m, db)) ∧
    (¬ e < s → is_range_forbidden db user.team_id s e = none → ¬ (e - s) + 1 > msd →
      check_overlap_policy db user.team_id s e user.role = none →
      user_year_used_days db user.id (yearOf s) + ((e - s) + 1) > myd →
      process_apply_submission db user type_id s e c =
        some (ApplyResult.quotaExceeded (yearOf s) (user_year_used_days db user.id (yearOf s)) myd, db)) ∧
    (¬ e < s → is_range_forbidden db user.team_id s e = none → ¬ (e - s) + 1 > msd →
      check_overlap_policy db user.team_id s e user.role = none →
      ¬ user_year_used_days db user.id (yearOf s) + ((e - s) + 1) > myd →
      process_apply_submission db user type_id s e c =
        some (ApplyResult.accepted db.next_vac_id,
          { db with vacations := db.vacations ++ [new_pending_row db user type_id s e c],
                    next_vac_id := db.next_vac_id + 1 })) ∧
    (∀ res db', process_apply_submission db user type_id s e c = some (res, db') →
      (∀ vid, res ≠ ApplyResult.accepted vid) → db'.vacations = db.vacations) := by
  have hA : ∀ (_ : e < s), process_apply_submission db user type_id s e c =
      some (ApplyResult.endBeforeStart, db) := by
    intro h1
    rw [process_apply_submission, if_pos h1]
  have hB : ∀ d, ¬ e < s → is_range_forbidden db user.team_id s e = some d →
      process_apply_submission db user type_id s e c = some (ApplyResult.forbidden d, db) := by
    intro d h1 h2
    rw [process_apply_submission, if_neg h1]
    simp only [h2]
  have hC : ¬ e < s → is_range_forbidden db user.team_id s e = none → (e - s) + 1 > msd →
      process_apply_submission db user type_id s e c = some (ApplyResult.capExceeded msd, db) := by
    intro h1 h2 h3
    rw [process_apply_submission, if_neg h1]
    simp only [h2, hs, if_pos h3]
  have hD : ∀ m, ¬ e < s → is_range_forbidden db user.team_id s e = none → ¬ (e - s) + 1 > msd →
      check_overlap_policy db user.team_id s e user.role = some m →
      process_apply_submission db user type_id s e c = some (ApplyResult.overlap m, db) := by
    intro m h1 h2 h3 h4
    rw [process_apply_submission, if_neg h1]
    simp only [h2, hs, if_neg h3, h4]
  have hE : ¬ e < s → is_range_forbidden db user.team_id s e = none → ¬ (e - s) + 1 > msd →
      check_overlap_policy db user.team_id s e user.role = none →
      user_year_used_days db user.id (yearOf s) + ((e - s) + 1) > myd →
      process_apply_submission db user type_id s e c =
        some (ApplyResult.quotaExceeded (yearOf s) (user_year_used_days db user.id (yearOf s)) myd, db) := by
    intro h1 h2 h3 h4 h5
    rw [process_apply_submission, if_neg h1]
    simp only [h2, hs, if_neg h3, h4, hy, if_pos h5]
  have hF : ¬ e < s → is_range_forbidden db user.team_id s e = none → ¬ (e - s) + 1 > msd →
      check_overlap_policy db user.team_id s e user.role = none →
      ¬ user_year_used_days db user.id (yearOf s) + ((e - s) + 1) > myd →
      process_apply_submission db user type_id s e c =
        some (ApplyResult.accepted db.next_vac_id,
          { db with vacations := db.vacations ++ [new_pending_row db user type_id s e c],
                    next_vac_id := db.next_vac_id + 1 }) := by
    intro h1 h2 h3 h4 h5
    rw [process_apply_submission, if_neg h1]
    simp only [h2, hs, if_neg h3, h4, hy, if_neg h5]
    rfl
  refine ⟨hA, hB, hC, hD, hE, hF, ?_⟩
  intro res db' h hne
  by_cases h1 : e < s
  · rw [hA h1] at h
    cases h
    rfl
  · cases h2 : is_range_forbidden db user.team_id s e with
    | some d =>
      rw [hB d h1 h2] at h
      cases h
      rfl
    | none =>
      by_cases h3 : (e - s) + 1 > msd
      · rw [hC h1 h2 h3] at h
        cases h
        rfl
      · cases h4 : check_overlap_policy db user.team_id s e user.role with
        | some m =>
          rw [hD m h1 h2 h3 h4] at h
          cases h
          rfl
        | none =>
          by_cases h5 : user_year_used_days db user.id (yearOf s) + ((e - s) + 1) > myd
          · rw [hE h1 h2 h3 h4 h5] at h
            cases h
            rfl
          · rw [hF h1 h2 h3 h4 h5] at h
            cases h
            exact absurd rfl (hne db.next_vac_id)

/-- Closed instance of `process_apply_pipeline` on an empty database
(default settings parse; a 3-day request is accepted as one pending row). -/
theorem process_apply_pipeline_witness :
    pyParseInt (get_team_setting db0 user0.team_id "max_single_days" "14") = some 14 ∧
    pyParseInt (get_team_setting db0 user0.team_id "max_year_days" "28") = some 28 ∧
    (¬ (7 : Int) < 5 → is_range_forbidden db0 user0.team_id 5 7 = none → ¬ ((7 : Int) - 5) + 1 > 14 →
      check_overlap_policy db0 user0.team_id 5 7 user0.role = none →
      ¬ user_year_used_days db0 user0.id (yearOf 5) + (((7 : Int) - 5) + 1) > 28 →
      process_apply_submission db0 user0 1 5 7 "" =
        some (ApplyResult.accepted db0.next_vac_id,
          { db0 with vacations := db0.vacations ++ [new_pending_row db0 user0 1 5 7 ""],
                     next_vac_id := db0.next_vac_id + 1 })) ∧
    process_apply_submission db0 user0 1 5 7 "" =
      some (ApplyResult.accepted 1,
        { db0 with vacations := [new_pending_row db0 user0 1 5 7 ""], next_vac_id := 2 }) := by
  have h := (process_apply_pipeline db0 user0 1 5 7 "" 14 28 (by decide) (by decide)).2.2.2.2.2.1
  refine ⟨by decide, by decide, h, ?_⟩
  rw [h (by decide) (by decide) (by decide) (by decide) (by decide)]
  rfl

/-! ### C5: per-request cap is strict -/

/-- C5: with parsed cap `msd`, the cap rule (reached after the range and
forbidden-date checks) rejects exactly when the day count `end − start + 1`
exceeds `msd` strictly, citing `msd`; a 14-day request under cap 14 passes
the cap rule, a 15-day one is rejected with 14 in the message. -/
theorem per_request_cap_strict (db : DB) (user : UserRow) (type_id : Nat)
    (s e : Int) (c : String) (msd myd : Int)
    (hs : pyParseInt (get_team_setting db user.team_id "max_single_days" "14") = some msd)
    (hy : pyParseInt (get_team_setting db user.team_id "max_year_days" "28") = some myd)
    (h1 : ¬ e < s) (h2 : is_range_forbidden db user.team_id s e = none) :
    (∀ v db', process_apply_submission db user type_id s e c =
        some (ApplyResult.capExceeded v, db') → v = msd ∧ (e - s) + 1 > msd) ∧
    ((e - s) + 1 > msd →
      process_apply_submission db user type_id s e c = some (ApplyResult.capExceeded msd, db)) ∧
    (apply_reply_text (ApplyResult.capExceeded msd) =
      "Превышен максимум дней за раз (" ++ toString msd ++ ").") ∧
    (msd = 14 → (e - s) + 1 = 15 →
      process_apply_submission db user type_id s e c = some (ApplyResult.capExceeded 14, db) ∧
      apply_reply_text (ApplyResult.capExceeded 14) = "Превышен максимум дней за раз (14).") ∧
    (msd = 14 → (e - s) + 1 = 14 → ∀ v db',
      process_apply_submission db user type_id s e c ≠ some (ApplyResult.capExceeded v, db')) := by
  have P := process_apply_pipeline db user type_id s e c msd myd hs hy
  have hcap : ∀ v db', process_apply_submission db user type_id s e c =
      some (ApplyResult.capExceeded v, db') → v = msd ∧ (e - s) + 1 > msd := by
    intro v db' h
    by_cases h3 : (e - s) + 1 > msd
    · rw [P.2.2.1 h1 h2 h3] at h
      cases h
      exact ⟨rfl, h3⟩
    · cases h4 : check_overlap_policy db user.team_id s e user.role with
      | some m =>
        rw [P.2.2.2.1 m h1 h2 h3 h4] at h
        simp at h
      | none =>
        by_cases h5 : user_year_used_days db user.id (yearOf s) + ((e - s) + 1) > myd
        · rw [P.2.2.2.2.1 h1 h2 h3 h4 h5] at h
          simp at h
        · rw [P.2.2.2.2.2.1 h1 h2 h3 h4 h5] at h
          simp at h
  refine ⟨hcap, P.2.2.1 h1 h2, rfl, ?_, ?_⟩
  · intro h14 h15
    subst h14
    exact ⟨P.2.2.1 h1 h2 (by omega), rfl⟩
  · intro h14 h15 v db' h
    have := hcap v db' h
    omega

/-- An existing approved request of team 1 (used by several scenarios). -/
def vacApproved : Vacation :=
  { id := 1, team_id := 1, user_id := 1, type_id := 1, start_date := 738700, end_date := 738702,
    days := 3, status := Status.approved, admin_comment := "ok" }

/-- Closed instance of `per_request_cap_strict`: with the default cap 14
(empty settings), a 15-day request `[1, 15]` is rejected citing 14. -/
theorem per_request_cap_strict_witness :
    pyParseInt (get_team_setting db0 user0.team_id "max_single_days" "14") = some 14 ∧
    is_range_forbidden db0 user0.team_id 1 15 = none ∧
    process_apply_submission db0 user0 1 1 15 "" = some (ApplyResult.capExceeded 14, db0) ∧
    apply_reply_text (ApplyResult.capExceeded 14) = "Превышен максимум дней за раз (14)." :=
  ⟨by decide, by decide,
    ((per_request_cap_strict db0 user0 1 1 15 "" 14 28 (by decide) (by decide) (by decide)
      (by decide)).2.2.2.1 rfl (by decide)).1,
    rfl⟩

/-! ### C4: annual quota counts exactly the approved requests of the year -/

/-- Folding the quota accumulator equals summing the day counts of the rows
selected by the `WHERE` clause. -/
lemma used_days_foldl (uid : Nat) (y : Int) (l : List Vacation) (acc : Int) :
    l.foldl
      (fun accv v =>
        if v.user_id == uid && v.status == Status.approved &&
            decide (toOrd y 1 1 ≤ v.start_date) && decide (v.start_date ≤ toOrd y 12 31) then
          accv + v.days
        else accv)
      acc
    = acc + ((l.filter (fun v => v.user_id == uid && v.status == Status.approved &&
        inYear y v.start_date)).map (fun v => v.days)).sum := by
  induction l generalizing acc with
  | nil => simp
  | cons hd tl ih =>
    have hpred : (hd.user_id == uid && hd.status == Status.approved && inYear y hd.start_date) =
        (hd.user_id == uid && hd.status == Status.approved &&
          decide (toOrd y 1 1 ≤ hd.start_date) && decide (hd.start_date ≤ toOrd y 12 31)) := by
      simp [inYear, Bool.and_assoc]
    rw [List.foldl_cons, List.filter_cons, hpred]
    by_cases hp : (hd.user_id == uid && hd.status == Status.approved &&
        decide (toOrd y 1 1 ≤ hd.start_date) && decide (hd.start_date ≤ toOrd y 12 31)) = true
    · rw [if_pos hp, if_pos hp, ih, List.map_cons, List.sum_cons]
      omega
    · rw [if_neg hp, if_neg hp, ih]

/-- Updating a row's status twice (reject, then approve) leaves exactly what a
single approve leaves: the row appears once either way. -/
lemma vacations_set_status_set_status (l : List Vacation) (vid : Nat)
    (st1 : Status) (c1 : String) (st2 : Status) (c2 : String) :
    vacations_set_status (vacations_set_status l vid st1 c1) vid st2 c2 =
      vacations_set_status l vid st2 c2 := by
  unfold vacations_set_status
  rw [List.map_map]
  apply List.map_congr_left
  intro w _
  by_cases hw : (w.id == vid) = true
  · simp [Function.comp, hw]
  · simp [Function.comp, hw]

/-- C4: `AnnualUsedDays(user, year)` is the sum of the day counts of exactly
that user's approved requests starting in that year; non-approved rows
contribute nothing; rejecting then re-approving a request never double
counts; and the quota rule rejects exactly when this sum plus the new day
count exceeds the parsed annual quota. -/
theorem annual_quota_spec :
    (∀ (db : DB) (uid : Nat) (y : Int),
      user_year_used_days db uid y =
        ((db.vacations.filter (fun v => v.user_id == uid && v.status == Status.approved &&
          inYear y v.start_date)).map (fun v => v.days)).sum) ∧
    (∀ (db : DB) (uid : Nat) (y : Int) (v : Vacation), v.status ≠ Status.approved →
      user_year_used_days { db with vacations := db.vacations ++ [v] } uid y =
        user_year_used_days db uid y) ∧
    (∀ (db : DB) (uid : Nat) (y : Int) (vid : Nat) (c1 c2 : String),
      user_year_used_days
        { db with vacations :=
            (vacations_set_status (vacations_set_status db.vacations vid Status.rejected c1)
              vid Status.approved c2) } uid y =
      user_year_used_days
        { db with vacations := vacations_set_status db.vacations vid Status.approved c2 } uid y) ∧
    (∀ (db : DB) (user : UserRow) (type_id : Nat) (s e : Int) (c : String) (msd myd : Int),
      pyParseInt (get_team_setting db user.team_id "max_single_days" "14") = some msd →
      pyParseInt (get_team_setting db user.team_id "max_year_days" "28") = some myd →
      ¬ e < s → is_range_forbidden db user.team_id s e = none → ¬ (e - s) + 1 > msd →
      check_overlap_policy db user.team_id s e user.role = none →
      ((process_apply_submission db user type_id s e c =
          some (ApplyResult.quotaExceeded (yearOf s) (user_year_used_days db user.id (yearOf s)) myd, db)
        ↔ user_year_used_days db user.id (yearOf s) + ((e - s) + 1) > myd) ∧
      (∀ y u m db', process_apply_submission db user type_id s e c =
          some (ApplyResult.quotaExceeded y u m, db') →
        y = yearOf s ∧ u = user_year_used_days db user.id (yearOf s) ∧ m = myd ∧
          u + ((e - s) + 1) > myd))) := by
  have hsum : ∀ (db : DB) (uid : Nat) (y : Int),
      user_year_used_days db uid y =
        ((db.vacations.filter (fun v => v.user_id == uid && v.status == Status.approved &&
          inYear y v.start_date)).map (fun v => v.days)).sum := by
    intro db uid y
    unfold user_year_used_days
    rw [used_days_foldl, zero_add]
  refine ⟨hsum, ?_, ?_, ?_⟩
  · intro db uid y v hv
    rw [hsum, hsum]
    show ((List.filter _ (db.vacations ++ [v])).map _).sum = _
    rw [List.filter_append]
    have hb : (v.status == Status.approved) = false := beq_eq_false_iff_ne.mpr hv
    have : List.filter (fun v => v.user_id == uid && v.status == Status.approved &&
        inYear y v.start_date) [v] = [] := by
      simp [List.filter, hb]
    rw [this, List.append_nil]
  · intro db uid y vid c1 c2
    rw [hsum, hsum]
    show ((List.filter _ (vacations_set_status (vacations_set_status db.vacations vid
      Status.rejected c1) vid Status.approved c2)).map _).sum = _
    rw [vacations_set_status_set_status]
  · intro db user type_id s e c msd myd hs hy h1 h2 h3 h4
    have P := process_apply_pipeline db user type_id s e c msd myd hs hy
    have hquota : ∀ y u m db', process_apply_submission db user type_id s e c =
        some (ApplyResult.quotaExceeded y u m, db') →
        y = yearOf s ∧ u = user_year_used_days db user.id (yearOf s) ∧ m = myd ∧
          u + ((e - s) + 1) > myd := by
      intro y u m db' h
      by_cases h5 : user_year_used_days db user.id (yearOf s) + ((e - s) + 1) > myd
      · rw [P.2.2.2.2.1 h1 h2 h3 h4 h5] at h
        cases h
        exact ⟨rfl, rfl, rfl, h5⟩
      · rw [P.2.2.2.2.2.1 h1 h2 h3 h4 h5] at h
        simp at h
    refine ⟨⟨?_, ?_⟩, hquota⟩
    · intro h
      exact (hquota _ _ _ _ h).2.2.2
    · exact P.2.2.2.2.1 h1 h2 h3 h4

/-- Closed instance of `annual_quota_spec`: a pending row contributes nothing
to the used-days sum, and on an empty database the quota rule does not fire
for a 3-day request. -/
theorem annual_quota_spec_witness :
    vacApproved.status = Status.approved ∧
    user_year_used_days
      { db0 with vacations := db0.vacations ++ [new_pending_row db0 user0 1 5 7 ""] } 1 (yearOf 5) =
      user_year_used_days db0 1 (yearOf 5) :=
  ⟨rfl, annual_quota_spec.2.1 db0 1 (yearOf 5) (new_pending_row db0 user0 1 5 7 "") (by decide)⟩

/-! ### C3: overlap-policy characterization -/

lemma overlap_scan_deny_all_none_iff (role : String) (s e : Int)
    (L : List (Vacation × UserRow)) :
    overlap_scan "deny_all" role s e L = none ↔
      ∀ p ∈ L, dates_overlap s e p.1.start_date p.1.end_date = false := by
  induction L with
  | nil => simp [overlap_scan]
  | cons hd tl ih =>
    obtain ⟨v, u⟩ := hd
    by_cases hov : dates_overlap s e v.start_date v.end_date = true
    · simp [overlap_scan, hov]
    · simp only [overlap_scan, Bool.not_eq_true] at hov ⊢
      simp [hov, ih]

lemma overlap_scan_deny_all_some (role : String) (s e : Int)
    (L : List (Vacation × UserRow)) (m : String) :
    overlap_scan "deny_all" role s e L = some m →
      ∃ p ∈ L, dates_overlap s e p.1.start_date p.1.end_date = true ∧
        m = deny_all_msg p.2.full_name p.1.start_date p.1.end_date := by
  induction L with
  | nil => intro h; simp [overlap_scan] at h
  | cons hd tl ih =>
    obtain ⟨v, u⟩ := hd
    intro h
    by_cases hov : dates_overlap s e v.start_date v.end_date = true
    · simp only [overlap_scan, hov, if_true, if_pos rfl, Option.some_inj] at h
      exact ⟨(v, u), List.mem_cons_self _ _, hov, h.symm⟩
    · simp only [overlap_scan, hov, if_false, Bool.false_eq_true] at h
      rcases ih h with ⟨p, hp, h1, h2⟩
      exact ⟨p, List.mem_cons_of_mem _ hp, h1, h2⟩

lemma overlap_scan_same_role_none_iff (role : String) (s e : Int)
    (L : List (Vacation × UserRow)) :
    overlap_scan "deny_same_role" role s e L = none ↔
      ∀ p ∈ L, ¬(dates_overlap s e p.1.start_date p.1.end_date = true ∧ p.2.role = role) := by
  induction L with
  | nil => simp [overlap_scan]
  | cons hd tl ih =>
    obtain ⟨v, u⟩ := hd
    by_cases hov : dates_overlap s e v.start_date v.end_date = true
    · by_cases hrole : u.role = role
      · simp [overlap_scan, hov, hrole]
      · simp [overlap_scan, hov, hrole, ih]
    · simp only [overlap_scan, Bool.not_eq_true] at hov ⊢
      simp [hov, ih]

lemma overlap_scan_same_role_some (role : String) (s e : Int)
    (L : List (Vacation × UserRow)) (m : String) :
    overlap_scan "deny_same_role" role s e L = some m →
      ∃ p ∈ L, dates_overlap s e p.1.start_date p.1.end_date = true ∧ p.2.role = role ∧
        m = deny_same_role_msg p.2.full_name p.1.start_date p.1.end_date role := by
  induction L with
  | nil => intro h; simp [overlap_scan] at h
  | cons hd tl ih =>
    obtain ⟨v, u⟩ := hd
    intro h
    by_cases hov : dates_overlap s e v.start_date v.end_date = true
    · by_cases hrole : u.role = role
      · simp only [overlap_scan, hov, if_true, hrole, and_true, if_neg (by decide :
          ¬("deny_same_role" : String) = "deny_all"), if_pos rfl, Option.some_inj] at h
        exact ⟨(v, u), List.mem_cons_self _ _, hov, hrole, h.symm⟩
      · simp only [overlap_scan, hov, if_true] at h
        rw [if_neg (by decide : ¬("deny_same_role" : String) = "deny_all"),
          if_neg (by simp [hrole])] at h
        rcases ih h with ⟨p, hp, h1, h2, h3⟩
        exact ⟨p, List.mem_cons_of_mem _ hp, h1, h2, h3⟩
    · simp only [overlap_scan, hov, if_false, Bool.false_eq_true] at h
      rcases ih h with ⟨p, hp, h1, h2, h3⟩
      exact ⟨p, List.mem_cons_of_mem _ hp, h1, h2, h3⟩

/-- Membership in the joined pending/approved rows of a team. -/
lemma mem_overlap_rows (db : DB) (team : Nat) (v : Vacation) (u : UserRow) :
    (v, u) ∈ overlap_rows db team ↔
      v ∈ db.vacations ∧ v.team_id = team ∧
        (v.status = Status.pending ∨ v.status = Status.approved) ∧
        db.users.find? (fun w => w.id == v.user_id) = some u := by
  unfold overlap_rows
  rw [List.mem_filterMap]
  constructor
  · rintro ⟨a, ha, hfa⟩
    by_cases hcond : (a.team_id == team &&
        (a.status == Status.pending || a.status == Status.approved)) = true
    · rw [if_pos hcond] at hfa
      rcases Option.map_eq_some'.mp hfa with ⟨u', hu', heq⟩
      injection heq with h1 h2
      subst h1
      subst h2
      simp only [Bool.and_eq_true, Bool.or_eq_true, beq_iff_eq] at hcond
      exact ⟨ha, hcond.1, hcond.2, hu'⟩
    · rw [if_neg hcond] at hfa
      cases hfa
  · rintro ⟨hmem, hteam, hstat, hfind⟩
    refine ⟨v, hmem, ?_⟩
    have hcond : (v.team_id == team &&
        (v.status == Status.pending || v.status == Status.approved)) = true := by
      simp only [Bool.and_eq_true, Bool.or_eq_true, beq_iff_eq]
      exact ⟨hteam, hstat⟩
    rw [if_pos hcond, hfind]
    rfl

/-- C3: under `allow_all` the overlap rule never rejects; under `deny_all` it
rejects exactly when some pending/approved request of the team intersects the
candidate interval, naming that requester; under `deny_same_role` exactly when
such an intersecting request's owner shares the submitting user's role. -/
theorem check_overlap_policy_spec (db : DB) (team : Nat) (s e : Int) (role : String)
    (h : s ≤ e) :
    (get_team_setting db team "overlap_policy" "allow_all" = "allow_all" →
      check_overlap_policy db team s e role = none) ∧
    (get_team_setting db team "overlap_policy" "allow_all" = "deny_all" →
      (check_overlap_policy db team s e role = none ↔
        ∀ p ∈ overlap_rows db team, dates_overlap s e p.1.start_date p.1.end_date = false) ∧
      (∀ m, check_overlap_policy db team s e role = some m →
        ∃ p ∈ overlap_rows db team, dates_overlap s e p.1.start_date p.1.end_date = true ∧
          m = deny_all_msg p.2.full_name p.1.start_date p.1.end_date)) ∧
    (get_team_setting db team "overlap_policy" "allow_all" = "deny_same_role" →
      (check_overlap_policy db team s e role = none ↔
        ∀ p ∈ overlap_rows db team,
          ¬(dates_overlap s e p.1.start_date p.1.end_date = true ∧ p.2.role = role)) ∧
      (∀ m, check_overlap_policy db team s e role = some m →
        ∃ p ∈ overlap_rows db team, dates_overlap s e p.1.start_date p.1.end_date = true ∧
          p.2.role = role ∧
          m = deny_same_role_msg p.2.full_name p.1.start_date p.1.end_date role)) ∧
    (∀ (v : Vacation) (u : UserRow), (v, u) ∈ overlap_rows db team ↔
      v ∈ db.vacations ∧ v.team_id = team ∧
        (v.status = Status.pending ∨ v.status = Status.approved) ∧
        db.users.find? (fun w => w.id == v.user_id) = some u) := by
  refine ⟨?_, ?_, ?_, fun v u => mem_overlap_rows db team v u⟩
  · intro hpol
    unfold check_overlap_policy
    rw [hpol]
    simp
  · intro hpol
    unfold check_overlap_policy
    rw [hpol]
    rw [if_neg (by decide : ¬("deny_all" : String) = "allow_all")]
    exact ⟨overlap_scan_deny_all_none_iff role s e (overlap_rows db team),
      fun m => overlap_scan_deny_all_some role s e (overlap_rows db team) m⟩
  · intro hpol
    unfold check_overlap_policy
    rw [hpol]
    rw [if_neg (by decide : ¬("deny_same_role" : String) = "allow_all")]
    exact ⟨overlap_scan_same_role_none_iff role s e (overlap_rows db team),
      fun m => overlap_scan_same_role_some role s e (overlap_rows db team) m⟩

/-- A team-1 database with one approved request, its owner, and overlap policy
`deny_all`. -/
def dbDeny : DB :=
  { db0 with
      vacations := [vacApproved], users := [user0],
      settings := sset (fun _ _ => none) "overlap_policy" 1 "deny_all" }

/-- Closed instance of `check_overlap_policy_spec`: under `deny_all`, an
interval intersecting the existing approved request is rejected. -/
theorem check_overlap_policy_spec_witness :
    (738701 : Int) ≤ 738703 ∧
    get_team_setting dbDeny 1 "overlap_policy" "allow_all" = "deny_all" ∧
    ¬ check_overlap_policy dbDeny 1 738701 738703 "BAER" = none :=
  ⟨by decide, by decide, fun hnone =>
    absurd (((check_overlap_policy_spec dbDeny 1 738701 738703 "BAER"
        (by decide)).2.1 (by decide)).1.mp hnone (vacApproved, user0)
        ((mem_overlap_rows dbDeny 1 vacApproved user0).mpr
          ⟨List.mem_cons_self _ _, rfl, Or.inr rfl, by decide⟩))
      (by decide)⟩

/-! ### C1: the finalize operation does not protect terminal statuses -/

/-- A database holding just the approved request `vacApproved` and its owner. -/
def dbApproved : DB := { db0 with vacations := [vacApproved], users := [user0] }

/-- C1 fails on the code: finalizing a recorded `reject` against request 1,
whose status is already `approved` (a terminal state), overwrites its status
and admin comment. -/
theorem finalize_changes_terminal_status :
    vacApproved.status = Status.approved ∧
    (finalize_admin_decision dbApproved 7 1 "reject" "note").1 =
      FinalizeResult.ok Status.rejected ∧
    ((finalize_admin_decision dbApproved 7 1 "reject" "note").2.1).vacations.map
      (fun v => (v.id, v.status, v.admin_comment)) = [(1, Status.rejected, "note")] := by
  exact ⟨rfl, rfl, by decide⟩

/-- C1 (amended): when the referenced request and its owner exist, finalize
unconditionally sets the request's status from the recorded action and
overwrites its admin comment — regardless of the request's current status,
terminal statuses included — deletes the admin's pending action, and emits
the requester notification; every request other than the referenced one is
left unchanged. -/
theorem finalize_admin_decision_spec (db : DB) (admin_tg vac_id : Nat)
    (action comment : String) (v : Vacation) (u : UserRow)
    (hv : db.vacations.find? (fun w => w.id == vac_id) = some v)
    (hu : db.users.find? (fun w => w.id == v.user_id) = some u) :
    finalize_admin_decision db admin_tg vac_id action comment =
      (FinalizeResult.ok (action_status action),
       { db with
           vacations := vacations_set_status db.vacations vac_id (action_status action) comment,
           admin_actions := fun a => if a = admin_tg then none else db.admin_actions a },
       match u.tg_id with
       | some tg =>
           [{ chat_id := tg, text := decision_note_text vac_id (action_status action) comment }]
       | none => []) ∧
    (∀ w ∈ db.vacations, w.id ≠ vac_id →
      w ∈ vacations_set_status db.vacations vac_id (action_status action) comment) := by
  constructor
  · unfold finalize_admin_decision
    simp only [find_vacation_user, hv, Option.some_bind, hu, Option.map_some']
  · intro w hw hne
    unfold vacations_set_status
    refine List.mem_map.mpr ⟨w, hw, ?_⟩
    rw [if_neg]
    simp [hne]

/-- Closed instance of `finalize_admin_decision_spec` at the concrete
database `dbApproved`. -/
theorem finalize_admin_decision_spec_witness :
    dbApproved.vacations.find? (fun w => w.id == 1) = some vacApproved ∧
    (finalize_admin_decision dbApproved 7 1 "approve" "ok").1 =
      FinalizeResult.ok Status.approved := by
  have h := (finalize_admin_decision_spec dbApproved 7 1 "approve" "ok" vacApproved user0
    (by decide) (by decide)).1
  exact ⟨by decide, by rw [h]; rfl⟩

/-! ### C7: skip-comment and free-text finalization diverge when the request
is gone -/

/-- A database where admin 5 has a recorded `approve` for request 99, which
does not exist. -/
def db7 : DB := { db0 with admin_actions := fun a => if a = 5 then some (99, "approve") else none }

/-- C7 fails on the code (contradicting the source's own comment that the
skip path applies the decision exactly as `admin_text_handler`): with an
active action whose request no longer exists, the skip shortcut deletes the
stale `admin_actions` row while the free-text path leaves it in place. -/
theorem skip_and_text_diverge_on_missing_request :
    db7.admin_actions 5 = some (99, "approve") ∧
    (admin_skip_comment_cb db7 5).1 = SkipResult.requestNotFound ∧
    ((admin_skip_comment_cb db7 5).2.1).admin_actions 5 = none ∧
    admin_text_decision db7 5 "/skip" = some (FinalizeResult.requestNotFound, db7, []) ∧
    ((admin_skip_comment_cb db7 5).2.1).admin_actions 5 ≠ db7.admin_actions 5 := by
  exact ⟨rfl, rfl, rfl, rfl, by decide⟩

/-! ### C6: at most one pending admin action; BeginDecision replaces -/

/-- C6: `BeginDecision` is an upsert keyed on the admin id (the second call
replaces the first, no merge or queue), other admins' slots are untouched,
and finalizing with an empty comment resolves the replacing action: req2 is
rejected while req1 — pending before — survives unchanged (in particular
still pending). -/
theorem begin_decision_single_slot (db : DB) (X r1 r2 : Nat)
    (v1 v2 : Vacation) (u2 : UserRow) (h12 : r1 ≠ r2)
    (hv1 : v1 ∈ db.vacations) (hid1 : v1.id = r1) (hp1 : v1.status = Status.pending)
    (hv2 : db.vacations.find? (fun w => w.id == r2) = some v2)
    (hu2 : db.users.find? (fun w => w.id == v2.user_id) = some u2) :
    (admin_action_cb db X r1 "approve").admin_actions X = some (r1, "approve") ∧
    (admin_action_cb (admin_action_cb db X r1 "approve") X r2 "reject").admin_actions X =
      some (r2, "reject") ∧
    (∀ a, a ≠ X →
      (admin_action_cb (admin_action_cb db X r1 "approve") X r2 "reject").admin_actions a =
        db.admin_actions a) ∧
    (∃ db' notes,
      admin_text_decision (admin_action_cb (admin_action_cb db X r1 "approve") X r2 "reject") X ""
        = some (FinalizeResult.ok Status.rejected, db', notes) ∧
      db'.vacations = vacations_set_status db.vacations r2 Status.rejected "" ∧
      v1 ∈ db'.vacations ∧ v1.status = Status.pending ∧
      db'.admin_actions X = none) := by
  refine ⟨by simp [admin_action_cb], by simp [admin_action_cb], ?_, ?_⟩
  · intro a ha
    simp [admin_action_cb, ha]
  · have hfin := (finalize_admin_decision_spec
      (admin_action_cb (admin_action_cb db X r1 "approve") X r2 "reject") X r2 "reject" ""
      v2 u2 hv2 hu2).1
    have heq : admin_text_decision
        (admin_action_cb (admin_action_cb db X r1 "approve") X r2 "reject") X "" =
        some (finalize_admin_decision
          (admin_action_cb (admin_action_cb db X r1 "approve") X r2 "reject") X r2 "reject" "") := by
      unfold admin_text_decision
      simp only [admin_action_cb, eq_self_iff_true, if_true]
      rw [if_neg (by decide : ¬("" : String) = "/skip")]
    rw [hfin, show action_status "reject" = Status.rejected from rfl] at heq
    refine ⟨_, _, heq, rfl, ?_, hp1, by simp⟩
    refine List.mem_map.mpr ⟨v1, hv1, ?_⟩
    rw [if_neg]
    simp [hid1, h12]

/-- Two pending requests of user 1 in team 1. -/
def vacPend1 : Vacation :=
  { id := 1, team_id := 1, user_id := 1, type_id := 1, start_date := 738600, end_date := 738601,
    days := 2, status := Status.pending, admin_comment := "" }

/-- A second pending request, disjoint dates. -/
def vacPend2 : Vacation :=
  { id := 2, team_id := 1, user_id := 1, type_id := 1, start_date := 738650, end_date := 738651,
    days := 2, status := Status.pending, admin_comment := "" }

/-- A database with the two pending requests and their owner. -/
def dbTwo : DB := { db0 with vacations := [vacPend1, vacPend2], users := [user0] }

/-- Closed instance of `begin_decision_single_slot` on `dbTwo`: admin 9
begins on request 1, then on request 2, and finalizes with an empty comment;
request 2 is rejected and request 1 is still there pending. -/
theorem begin_decision_single_slot_witness :
    (1 : Nat) ≠ 2 ∧ vacPend1 ∈ dbTwo.vacations ∧
    ∃ db' notes,
      admin_text_decision (admin_action_cb (admin_action_cb dbTwo 9 1 "approve") 9 2 "reject") 9 ""
        = some (FinalizeResult.ok Status.rejected, db', notes) ∧
      db'.vacations = vacations_set_status dbTwo.vacations 2 Status.rejected "" ∧
      vacPend1 ∈ db'.vacations ∧ vacPend1.status = Status.pending ∧
      db'.admin_actions 9 = none :=
  ⟨by decide, by decide,
    (begin_decision_single_slot dbTwo 9 1 2 vacPend1 vacPend2 user0 (by decide) (by decide)
      (by decide) (by decide) (by decide) (by decide)).2.2.2⟩

/-! ### C8: CancelRequest (spec-modelled) -/

/-- C8: `CancelRequest` fails with `NotOwner` when the caller did not create
the request; fails with `NotPending` — leaving everything unchanged — when
the request is not pending; and cancels (only) a pending request of the
caller. -/
theorem cancelRequest_spec (db : DB) (rid uid : Nat) (v : Vacation)
    (hv : db.vacations.find? (fun w => w.id == rid) = some v) :
    (v.user_id ≠ uid → cancelRequest db rid uid = (CancelResult.notOwner, db)) ∧
    (v.user_id = uid → v.status ≠ Status.pending →
      cancelRequest db rid uid = (CancelResult.notPending, db)) ∧
    (v.user_id = uid → v.status = Status.pending →
      cancelRequest db rid uid = (CancelResult.cancelled,
        { db with vacations :=
            vacations_set_status db.vacations rid Status.cancelled v.admin_comment })) := by
  have hshow : cancelRequest db rid uid =
      (if v.user_id ≠ uid then (CancelResult.notOwner, db)
       else if v.status ≠ Status.pending then (CancelResult.notPending, db)
       else (CancelResult.cancelled,
         { db with vacations := vacations_set_status db.vacations rid Status.cancelled v.admin_comment })) := by
    unfold cancelRequest
    rw [hv]
  refine ⟨?_, ?_, ?_⟩
  · intro hno
    rw [hshow, if_pos hno]
  · intro hown hnp
    rw [hshow, if_neg (by simp [hown]), if_pos hnp]
  · intro hown hp
    rw [hshow, if_neg (by simp [hown]), if_neg (by simp [hp])]

/-- Closed instance of `cancelRequest_spec`: cancelling the approved request
`vacApproved` fails with `NotPending` and leaves the database unchanged. -/
theorem cancelRequest_spec_witness :
    dbApproved.vacations.find? (fun w => w.id == 1) = some vacApproved ∧
    cancelRequest dbApproved 1 1 = (CancelResult.notPending, dbApproved) :=
  ⟨by decide,
    (cancelRequest_spec dbApproved 1 1 vacApproved (by decide)).2.1 rfl (by decide)⟩

/-! ### C9: forbidden dates are independent per-day rows -/

lemma mem_dayRange {s e x : Int} : x ∈ dayRange s e ↔ s ≤ x ∧ x ≤ e := by
  unfold dayRange
  rw [List.mem_map]
  constructor
  · rintro ⟨i, hi, rfl⟩
    rw [List.mem_range] at hi
    omega
  · rintro ⟨h1, h2⟩
    refine ⟨(x - s).toNat, List.mem_range.mpr (by omega), by omega⟩

lemma contains_forbidden_set (db : DB) (t : Nat) (x : Int) :
    (forbidden_set db t).contains x = true ↔
      ∃ r ∈ db.forbidden_dates, r.team_id = t ∧ r.date = x := by
  rw [List.contains_iff_exists_mem_beq]
  unfold forbidden_set
  constructor
  · rintro ⟨d, hd, hbeq⟩
    rw [List.mem_map] at hd
    rcases hd with ⟨r, hr, rfl⟩
    rw [List.mem_filter] at hr
    exact ⟨r, hr.1, by simpa using hr.2, (beq_iff_eq.mp hbeq).symm⟩
  · rintro ⟨r, hr, ht, hd⟩
    exact ⟨r.date, List.mem_map.mpr ⟨r, List.mem_filter.mpr ⟨hr, by simpa using ht⟩, rfl⟩,
      beq_iff_eq.mpr hd.symm⟩

lemma is_range_forbidden_none_iff (db : DB) (t : Nat) (s e : Int) :
    is_range_forbidden db t s e = none ↔
      ∀ x, s ≤ x → x ≤ e → ¬ ∃ r ∈ db.forbidden_dates, r.team_id = t ∧ r.date = x := by
  unfold is_range_forbidden
  rw [List.find?_eq_none]
  constructor
  · intro h x h1 h2 hex
    exact h x (mem_dayRange.mpr ⟨h1, h2⟩) ((contains_forbidden_set db t x).mpr hex)
  · intro h x hx hp
    have hb := mem_dayRange.mp hx
    exact h x hb.1 hb.2 ((contains_forbidden_set db t x).mp hp)

lemma find?_eq_some_of_unique {α : Type} (p : α → Bool) (l : List α) (a : α)
    (ha : a ∈ l) (hpa : p a = true) (huniq : ∀ b ∈ l, p b = true → b = a) :
    l.find? p = some a := by
  induction l with
  | nil => cases ha
  | cons hd tl ih =>
    by_cases hphd : p hd = true
    · rw [List.find?_cons_of_pos _ hphd]
      rw [huniq hd (List.mem_cons_self _ _) hphd]
    · rw [List.find?_cons_of_neg _ hphd]
      refine ih ?_ (fun b hb hpb => huniq b (List.mem_cons_of_mem _ hb) hpb)
      rcases List.mem_cons.mp ha with rfl | hmem
      · exact absurd hpa hphd
      · exact hmem

lemma is_range_forbidden_eq_some (db : DB) (t : Nat) (s e f : Int)
    (h1 : s ≤ f) (h2 : f ≤ e)
    (hf : ∃ r ∈ db.forbidden_dates, r.team_id = t ∧ r.date = f)
    (huniq : ∀ x, s ≤ x → x ≤ e →
      (∃ r ∈ db.forbidden_dates, r.team_id = t ∧ r.date = x) → x = f) :
    is_range_forbidden db t s e = some f := by
  unfold is_range_forbidden
  refine find?_eq_some_of_unique _ _ f (mem_dayRange.mpr ⟨h1, h2⟩)
    ((contains_forbidden_set db t f).mpr hf) ?_
  intro b hb hpb
  have hm := mem_dayRange.mp hb
  exact huniq b hm.1 hm.2 ((contains_forbidden_set db t b).mp hpb)

lemma mem_unforbid (db : DB) (t : Nat) (d : Int) (r : ForbiddenRow) :
    r ∈ (admin_unforbid_date db t d).forbidden_dates ↔
      r ∈ db.forbidden_dates ∧ ¬(r.team_id = t ∧ r.date = d) := by
  unfold admin_unforbid_date
  rw [List.mem_filter]
  constructor
  · rintro ⟨hmem, hb⟩
    refine ⟨hmem, fun hc => ?_⟩
    simp [hc.1, hc.2] at hb
  · rintro ⟨hmem, hnc⟩
    refine ⟨hmem, ?_⟩
    by_cases ht : r.team_id = t
    · have hd : ¬ r.date = d := fun hdd => hnc ⟨ht, hdd⟩
      simp [hd]
    · simp [ht]

/-- C9: a team's forbidden set is exactly its per-day rows; removing one date
removes only the rows of that team and date — even when the dates were
inserted together as one range — and a request whose range contains exactly
one forbidden date is rejected citing it, then passes after that single
removal. -/
theorem forbidden_dates_per_day_spec :
    (∀ (db : DB) (t : Nat) (x : Int),
      (forbidden_set db t).contains x = true ↔
        ∃ r ∈ db.forbidden_dates, r.team_id = t ∧ r.date = x) ∧
    (∀ (db : DB) (t : Nat) (d : Int) (r : ForbiddenRow),
      r ∈ (admin_unforbid_date db t d).forbidden_dates ↔
        r ∈ db.forbidden_dates ∧ ¬(r.team_id = t ∧ r.date = d)) ∧
    (∀ (db : DB) (t : Nat) (d1 d2 : Int) (note : String) (r : ForbiddenRow),
      r ∈ (forbid_range db t d1 d2 note).forbidden_dates ↔
        r ∈ db.forbidden_dates ∨
          (r.team_id = t ∧ d1 ≤ r.date ∧ r.date ≤ d2 ∧ r.note = note)) ∧
    (∀ (db : DB) (t : Nat) (s e f : Int), s ≤ e → s ≤ f → f ≤ e →
      (∃ r ∈ db.forbidden_dates, r.team_id = t ∧ r.date = f) →
      (∀ x, s ≤ x → x ≤ e →
        (∃ r ∈ db.forbidden_dates, r.team_id = t ∧ r.date = x) → x = f) →
      is_range_forbidden db t s e = some f ∧
      is_range_forbidden (admin_unforbid_date db t f) t s e = none) := by
  refine ⟨contains_forbidden_set, mem_unforbid, ?_, ?_⟩
  · intro db t d1 d2 note r
    unfold forbid_range
    rw [List.mem_append, List.mem_map]
    apply or_congr_right
    constructor
    · rintro ⟨d, hd, rfl⟩
      exact ⟨rfl, (mem_dayRange.mp hd).1, (mem_dayRange.mp hd).2, rfl⟩
    · rintro ⟨ht, hb1, hb2, hn⟩
      refine ⟨r.date, mem_dayRange.mpr ⟨hb1, hb2⟩, ?_⟩
      cases r with
      | mk a b c =>
        cases ht
        cases hn
        rfl
  · intro db t s e f hse hsf hfe hf huniq
    refine ⟨is_range_forbidden_eq_some db t s e f hsf hfe hf huniq, ?_⟩
    rw [is_range_forbidden_none_iff]
    rintro x h1 h2 ⟨r, hr, ht, hd⟩
    rw [mem_unforbid] at hr
    have hx : x = f := huniq x h1 h2 ⟨r, hr.1, ht, hd⟩
    exact hr.2 ⟨ht, by rw [hd, hx]⟩

/-- Closed instance of `forbidden_dates_per_day_spec`: after forbidding the
range 20–22 for team 1, the request range 10–20 contains exactly the
forbidden date 20, is rejected citing it, and passes once 20 is removed. -/
theorem forbidden_dates_per_day_spec_witness :
    (10 : Int) ≤ 20 ∧
    is_range_forbidden (forbid_range db0 1 20 22 "праздник") 1 10 20 = some 20 ∧
    is_range_forbidden (admin_unforbid_date (forbid_range db0 1 20 22 "праздник") 1 20) 1 10 20
      = none := by
  have huniq : ∀ x : Int, 10 ≤ x → x ≤ 20 →
      (∃ r ∈ (forbid_range db0 1 20 22 "праздник").forbidden_dates,
        r.team_id = 1 ∧ r.date = x) → x = 20 := by
    rintro x h1 h2 ⟨r, hr, ht, hd⟩
    have hlist : (forbid_range db0 1 20 22 "праздник").forbidden_dates =
        [{ team_id := 1, date := 20, note := "праздник" },
         { team_id := 1, date := 21, note := "праздник" },
         { team_id := 1, date := 22, note := "праздник" }] := by decide
    rw [hlist] at hr
    simp only [List.mem_cons, List.not_mem_nil, or_false] at hr
    rcases hr with rfl | rfl | rfl
    · simp at hd
      omega
    · simp at hd
      omega
    · simp at hd
      omega
  have hres := (forbidden_dates_per_day_spec.2.2.2 (forbid_range db0 1 20 22 "праздник") 1
    10 20 20 (by decide) (by decide) (by decide)
    ⟨{ team_id := 1, date := 20, note := "праздник" }, by decide, rfl, rfl⟩ huniq)
  exact ⟨by decide, hres.1, hres.2⟩

end VacationBot
